import Mathlib

/-!
Verification development for the golf-scraper repository.

Shallow embeddings of the repository's core scrape-loop pattern and its
supporting utilities:

* `src/src/utils/progressManager.js` — the in-memory checkpoint store
  (`readProgress` / `saveProgress`).
* `src/unnamed/part_000` (`scraperController.js`) — the job status registry.
* `isValidPhoneNumber` from `src/src/lib/scrapers/okgolf.js` (identical copy in
  `sggolf_basic.js`).
* `retry` from `src/unnamed/part_002` (`sggolf_detail.js`; identical copy in
  `thekgolf.js`).
* The page loop of `src/src/lib/scrapers/citeezon.js` (`scrapeCiteezen`).
* The page/store loop of `src/src/lib/scrapers/okgolf.js` (`scrapeOkongolf`).
* The page loop of `src/unnamed/part_003` (`fieldzone.js`, `scrapeFieldzone`).
* The shop loop of `src/unnamed/part_004` (`thekgolf.js` detail scraper,
  `scrapeTheKgolf`).

I/O is abstracted as usual for a shallow embedding: the page fetcher becomes an
oracle from unit position to fetch outcome, the cooperative-stop registry reads
become an oracle from poll site to status, file writes become state fields, and
`async`/`await` sequencing becomes ordinary sequential state passing.
-/

namespace GolfScraper

/-- Job status values used by `scraperController.js` (`src/unnamed/part_000`):
`idle`, `running`, `stopped`. -/
inductive Status where
  | idle
  | running
  | stopped
deriving DecidableEq

/-- The default progress record built by `readProgress` in
`src/src/utils/progressManager.js` when no record is stored:
`{ lastProcessedRegionIndex: 0, regionsProgress: Array(totalRegions).fill(0) }`. -/
structure ProgressRecord where
  lastProcessedRegionIndex : Nat
  regionsProgress : List Nat
deriving DecidableEq

/-- `Array(totalRegions).fill(0)` together with the zero index. -/
def defaultProgress (totalRegions : Nat) : ProgressRecord :=
  { lastProcessedRegionIndex := 0, regionsProgress := List.replicate totalRegions 0 }

/-- The module-level `progressStore` object: a map from task name to the stored
record (`none` models an absent key; stored records are objects, hence truthy,
so the JS `!progressStore[taskName]` test is exactly the `none` test). -/
def ProgressStore : Type := String → Option ProgressRecord

/-- `readProgress(taskName, totalRegions)` from `progressManager.js`: if the key
is absent, insert the default record, then return the stored record. The
returned pair is (returned record, store after the call). -/
def readProgress (store : ProgressStore) (taskName : String) (totalRegions : Nat) :
    ProgressRecord × ProgressStore :=
  match store taskName with
  | some r => (r, store)
  | none =>
      (defaultProgress totalRegions,
        fun k => if k = taskName then some (defaultProgress totalRegions) else store k)

/-- `saveProgress(taskName, progress)` from `progressManager.js`. -/
def saveProgress (store : ProgressStore) (taskName : String) (r : ProgressRecord) :
    ProgressStore :=
  fun k => if k = taskName then some r else store k

/-!
## Phone validation (`isValidPhoneNumber`, okgolf.js lines 295-302)

```js
function isValidPhoneNumber(phoneStr) {
    if (phoneStr === "-" || phoneStr === "") { return true; }
    const regex = /^\d{2,3}-\d{3,4}-\d{4}$/;
    return regex.test(phoneStr);
}
```

The regex is anchored and alternates digit runs with literal hyphens.  Because
`\d` never matches `-`, greedy matching is deterministic: each quantified digit
group must consume a whole maximal digit run.  `phoneRegexTest` is that
deterministic reading of `regex.test`.
-/

/-- `regex.test(phoneStr)` for `/^\d{2,3}-\d{3,4}-\d{4}$/`, written as the
deterministic maximal-digit-run matcher (exact because `\d` and `-` are
disjoint, so the greedy quantifiers cannot backtrack into a digit run). -/
def phoneRegexTest (cs : List Char) : Bool :=
  decide ((cs.dropWhile Char.isDigit).head? = some '-') &&
  decide (2 ≤ (cs.takeWhile Char.isDigit).length) &&
  decide ((cs.takeWhile Char.isDigit).length ≤ 3) &&
  decide ((((cs.dropWhile Char.isDigit).tail).dropWhile Char.isDigit).head? = some '-') &&
  decide (3 ≤ (((cs.dropWhile Char.isDigit).tail).takeWhile Char.isDigit).length) &&
  decide ((((cs.dropWhile Char.isDigit).tail).takeWhile Char.isDigit).length ≤ 4) &&
  ((((cs.dropWhile Char.isDigit).tail).dropWhile Char.isDigit).tail).all Char.isDigit &&
  decide (((((cs.dropWhile Char.isDigit).tail).dropWhile Char.isDigit).tail).length = 4)

/-- `isValidPhoneNumber` from okgolf.js / sggolf_basic.js. -/
def isValidPhoneNumber (s : String) : Bool :=
  if s = "-" || s = "" then true else phoneRegexTest s.data

/-- The spec's wording of the accepted phone shape:
"digits(2-3)-digits(3-4)-digits(4)". -/
def PhonePatternSpec (cs : List Char) : Prop :=
  ∃ d1 d2 d3 : List Char,
    cs = d1 ++ '-' :: (d2 ++ '-' :: d3) ∧
    (∀ c ∈ d1, c.isDigit = true) ∧ (∀ c ∈ d2, c.isDigit = true) ∧
    (∀ c ∈ d3, c.isDigit = true) ∧
    2 ≤ d1.length ∧ d1.length ≤ 3 ∧ 3 ≤ d2.length ∧ d2.length ≤ 4 ∧ d3.length = 4

theorem mem_takeWhile_pred {α : Type} {p : α → Bool} :
    ∀ {l : List α} {c : α}, c ∈ l.takeWhile p → p c = true := by
  intro l
  induction l with
  | nil => intro c h; simp [List.takeWhile] at h
  | cons a t ih =>
      intro c h
      rw [List.takeWhile_cons] at h
      by_cases hp : p a
      · simp [hp] at h
        rcases h with h | h
        · subst h; exact hp
        · exact ih h
      · simp [hp] at h

theorem takeWhile_append_block {α : Type} {p : α → Bool} (xs : List α) (y : α) (ys : List α)
    (hxs : ∀ c ∈ xs, p c = true) (hy : p y = false) :
    (xs ++ y :: ys).takeWhile p = xs ∧ (xs ++ y :: ys).dropWhile p = y :: ys := by
  induction xs with
  | nil => simp [List.takeWhile_cons, List.dropWhile_cons, hy]
  | cons a t ih =>
      have ha : p a = true := hxs a (by simp)
      have ht : ∀ c ∈ t, p c = true := fun c hc => hxs c (by simp [hc])
      rcases ih ht with ⟨h1, h2⟩
      constructor
      · simp [List.takeWhile_cons, ha, h1]
      · simp [List.dropWhile_cons, ha, h2]

theorem phoneRegexTest_iff (cs : List Char) : phoneRegexTest cs = true ↔ PhonePatternSpec cs := by
  constructor
  · intro h
    unfold phoneRegexTest at h
    simp only [Bool.and_eq_true, decide_eq_true_eq] at h
    obtain ⟨⟨⟨⟨⟨⟨⟨hh1, hl1⟩, hl2⟩, hh2⟩, hl3⟩, hl4⟩, hall⟩, hl5⟩ := h
    rcases h1 : cs.dropWhile Char.isDigit with _ | ⟨c1, r2⟩
    · rw [h1] at hh1; simp at hh1
    · rw [h1] at hh1 hh2 hl3 hl4 hall hl5
      simp only [List.head?_cons, Option.some.injEq] at hh1
      subst hh1
      simp only [List.tail_cons] at hh2 hl3 hl4 hall hl5
      rcases h2 : r2.dropWhile Char.isDigit with _ | ⟨c2, r4⟩
      · rw [h2] at hh2; simp at hh2
      · rw [h2] at hh2 hall hl5
        simp only [List.head?_cons, Option.some.injEq] at hh2
        subst hh2
        simp only [List.tail_cons] at hall hl5
        refine ⟨cs.takeWhile Char.isDigit, r2.takeWhile Char.isDigit, r4,
          ?_, ?_, ?_, ?_, hl1, hl2, hl3, hl4, hl5⟩
        · conv_lhs => rw [← List.takeWhile_append_dropWhile (p := Char.isDigit) (l := cs)]
          rw [h1]
          congr 1
          congr 1
          conv_lhs => rw [← List.takeWhile_append_dropWhile (p := Char.isDigit) (l := r2)]
          rw [h2]
        · exact fun c hc => mem_takeWhile_pred hc
        · exact fun c hc => mem_takeWhile_pred hc
        · exact fun c hc => (List.all_eq_true.mp hall) c hc
  · rintro ⟨d1, d2, d3, hcs, hd1, hd2, hd3, hl1, hl2, hl3, hl4, hl5⟩
    have hdash : Char.isDigit '-' = false := by decide
    subst hcs
    obtain ⟨ht1, hr1⟩ := takeWhile_append_block d1 '-' (d2 ++ '-' :: d3) hd1 hdash
    obtain ⟨ht2, hr2⟩ := takeWhile_append_block d2 '-' d3 hd2 hdash
    unfold phoneRegexTest
    simp only [hr1, ht1, List.tail_cons, ht2, hr2, List.head?_cons, Bool.and_eq_true,
      decide_eq_true_eq, List.all_eq_true]
    exact ⟨⟨⟨⟨⟨⟨⟨trivial, hl1⟩, hl2⟩, trivial⟩, hl3⟩, hl4⟩, fun c hc => hd3 c hc⟩, hl5⟩

/-- C8: For every string `p`, `isValidPhoneNumber` accepts `p` iff `p` matches
`digits(2-3)-digits(3-4)-digits(4)`, or `p` is the literal `"-"`, or `p` is the
empty string; in particular `"02-1234-5678"` is accepted, `"02-12-5678"` is
rejected, and `""` and `"-"` are accepted. -/
theorem isValidPhoneNumber_boundary :
    (∀ s : String, isValidPhoneNumber s = true ↔
      (PhonePatternSpec s.data ∨ s = "-" ∨ s = "")) ∧
    isValidPhoneNumber "02-1234-5678" = true ∧
    isValidPhoneNumber "02-12-5678" = false ∧
    isValidPhoneNumber "" = true ∧
    isValidPhoneNumber "-" = true := by
  refine ⟨?_, by decide, by decide, by decide, by decide⟩
  intro s
  unfold isValidPhoneNumber
  by_cases hdash : s = "-"
  · simp [hdash]
  · by_cases hempty : s = ""
    · simp [hempty]
    · have : (s = "-" || s = "") = false := by
        simp [hdash, hempty]
      rw [this]
      simp only [Bool.false_eq_true, if_false]
      rw [phoneRegexTest_iff]
      constructor
      · exact fun h => Or.inl h
      · rintro (h | h | h)
        · exact h
        · exact absurd h hdash
        · exact absurd h hempty

/-- C9: For every job id with no stored record, `readProgress` returns the
job's default Progress Record with all indices zero: `lastProcessedRegionIndex`
is `0` and `regionsProgress` is an all-zero array. -/
theorem readProgress_default_allZero (store : ProgressStore) (id : String)
    (totalRegions : Nat) (h : store id = none) :
    (readProgress store id totalRegions).1 = defaultProgress totalRegions ∧
    (readProgress store id totalRegions).1.lastProcessedRegionIndex = 0 ∧
    ∀ x ∈ (readProgress store id totalRegions).1.regionsProgress, x = 0 := by
  unfold readProgress
  rw [h]
  refine ⟨rfl, rfl, ?_⟩
  intro x hx
  unfold defaultProgress at hx
  simp only at hx
  exact List.eq_of_mem_replicate hx

/-- Witness for C9 at a concrete absent id. -/
theorem readProgress_default_allZero_witness :
    (readProgress (fun _ => none) "thekgolf" 3).1 = defaultProgress 3 ∧
    (readProgress (fun _ => none) "thekgolf" 3).1.lastProcessedRegionIndex = 0 :=
  ⟨(readProgress_default_allZero (fun _ => none) "thekgolf" 3 rfl).1,
   (readProgress_default_allZero (fun _ => none) "thekgolf" 3 rfl).2.1⟩

theorem readProgress_of_present (store : ProgressStore) (id : String) (m : Nat)
    (r : ProgressRecord) (h : store id = some r) :
    readProgress store id m = (r, store) := by
  unfold readProgress
  rw [h]

/-- C10: `readProgress` on an absent id inserts the default record at exactly
that id, leaves every other id unchanged, and afterwards every subsequent
`readProgress` on the same id returns that stored record without further
mutation; the first call does mutate the store. -/
theorem readProgress_insertion_frame (store : ProgressStore) (id : String)
    (n m : Nat) (h : store id = none) :
    (readProgress store id n).2 id = some (defaultProgress n) ∧
    (∀ k, k ≠ id → (readProgress store id n).2 k = store k) ∧
    (readProgress ((readProgress store id n).2) id m).1 = defaultProgress n ∧
    (readProgress ((readProgress store id n).2) id m).2 = (readProgress store id n).2 ∧
    (readProgress store id n).2 ≠ store := by
  have hfst : (readProgress store id n).2 id = some (defaultProgress n) := by
    unfold readProgress
    rw [h]
    simp
  refine ⟨hfst, ?_, ?_, ?_, ?_⟩
  · intro k hk
    unfold readProgress
    rw [h]
    simp [hk]
  · rw [readProgress_of_present _ _ _ _ hfst]
  · rw [readProgress_of_present _ _ _ _ hfst]
  · intro heq
    rw [heq] at hfst
    rw [h] at hfst
    exact Option.noConfusion hfst

/-- Witness for C10 at a concrete absent id (the frame conjunct instantiated
at the unrelated id `"thekgolf"`). -/
theorem readProgress_insertion_frame_witness :
    (readProgress (fun _ => none) "okongolf_store" 2).2 "okongolf_store" =
      some (defaultProgress 2) ∧
    (readProgress (fun _ => none) "okongolf_store" 2).2 "thekgolf" =
      (fun _ => none : ProgressStore) "thekgolf" ∧
    (readProgress ((readProgress (fun _ => none) "okongolf_store" 2).2) "okongolf_store" 7).1 =
      defaultProgress 2 ∧
    (readProgress ((readProgress (fun _ => none) "okongolf_store" 2).2) "okongolf_store" 7).2 =
      (readProgress (fun _ => none) "okongolf_store" 2).2 ∧
    (readProgress (fun _ => none) "okongolf_store" 2).2 ≠ (fun _ => none : ProgressStore) :=
  ⟨(readProgress_insertion_frame (fun _ => none) "okongolf_store" 2 7 rfl).1,
   (readProgress_insertion_frame (fun _ => none) "okongolf_store" 2 7 rfl).2.1
     "thekgolf" (by decide),
   (readProgress_insertion_frame (fun _ => none) "okongolf_store" 2 7 rfl).2.2.1,
   (readProgress_insertion_frame (fun _ => none) "okongolf_store" 2 7 rfl).2.2.2.1,
   (readProgress_insertion_frame (fun _ => none) "okongolf_store" 2 7 rfl).2.2.2.2⟩

/-!
## The retry helper (`src/unnamed/part_002` lines 26-36, identical in
`src/src/lib/scrapers/thekgolf.js` lines 32-42)

```js
async function retry(fn, retries = 3) {
    for (let attempt = 1; attempt <= retries; attempt++) {
        try {
            return await fn();
        } catch (error) {
            if (attempt === retries) throw error;
            logWarn(...);
            await new Promise(resolve => setTimeout(resolve, 1000));
        }
    }
}
```

`fn` is modelled as an oracle from the attempt number (1-based) to that
attempt's outcome.  The model returns the overall outcome (`none` models the
loop falling through and returning `undefined`, which happens only when
`retries = 0`), the number of invocations of `fn`, and the list of sleep
durations in milliseconds.
-/

/-- One pass of the `retry` loop: `attempt` is the 1-based attempt counter and
`remaining` the number of attempts still allowed (`attempt === retries` in the
source is `remaining = 1` here). Accumulates the call count and sleep trace. -/
def retryAux {E A : Type} (fn : Nat → Except E A) :
    Nat → Nat → Nat → List Nat → Option (Except E A) × Nat × List Nat
  | _, 0, calls, sleeps => (none, calls, sleeps)
  | attempt, remaining + 1, calls, sleeps =>
      match fn attempt with
      | Except.ok a => (some (Except.ok a), calls + 1, sleeps)
      | Except.error e =>
          if remaining = 0 then (some (Except.error e), calls + 1, sleeps)
          else retryAux fn (attempt + 1) remaining (calls + 1) (sleeps ++ [1000])

/-- `retry(fn, retries)`: outcome, number of invocations of `fn`, sleep trace. -/
def retry {E A : Type} (fn : Nat → Except E A) (retries : Nat) :
    Option (Except E A) × Nat × List Nat :=
  retryAux fn 1 retries 0 []

/-- C5: with the default limit of 3: if every attempt throws, `fn` is invoked
exactly 3 times with a 1-second wait between attempts and the last error is
propagated; if attempt `k ≤ 3` succeeds (after the earlier ones threw), its
result is returned with no further attempts; each attempt's result is `fn`'s
own value for that attempt, with no carry-over between attempts. -/
theorem retry_default_policy {E A : Type} (fn : Nat → Except E A) :
    (∀ e1 e2 e3 : E, fn 1 = Except.error e1 → fn 2 = Except.error e2 →
      fn 3 = Except.error e3 →
      retry fn 3 = (some (Except.error e3), 3, [1000, 1000])) ∧
    (∀ a : A, fn 1 = Except.ok a → retry fn 3 = (some (Except.ok a), 1, [])) ∧
    (∀ (e1 : E) (a : A), fn 1 = Except.error e1 → fn 2 = Except.ok a →
      retry fn 3 = (some (Except.ok a), 2, [1000])) ∧
    (∀ (e1 e2 : E) (a : A), fn 1 = Except.error e1 → fn 2 = Except.error e2 →
      fn 3 = Except.ok a →
      retry fn 3 = (some (Except.ok a), 3, [1000, 1000])) := by
  refine ⟨?_, ?_, ?_, ?_⟩
  · intro e1 e2 e3 h1 h2 h3
    simp [retry, retryAux, h1, h2, h3]
  · intro a h1
    simp [retry, retryAux, h1]
  · intro e1 a h1 h2
    simp [retry, retryAux, h1, h2]
  · intro e1 e2 a h1 h2 h3
    simp [retry, retryAux, h1, h2, h3]

/-- Witness for C5: a concrete always-failing operation is invoked exactly 3
times with two 1-second waits and the last error propagates; a concrete
operation succeeding on attempt 2 stops after 2 invocations. -/
theorem retry_default_policy_witness :
    retry (fun n => (Except.error n : Except Nat Nat)) 3 =
      (some (Except.error 3), 3, [1000, 1000]) ∧
    retry (fun n => if n = 2 then Except.ok 7 else (Except.error n : Except Nat Nat)) 3 =
      (some (Except.ok 7), 2, [1000]) :=
  ⟨(retry_default_policy (fun n => (Except.error n : Except Nat Nat))).1 1 2 3 rfl rfl rfl,
   (retry_default_policy
      (fun n => if n = 2 then Except.ok 7 else (Except.error n : Except Nat Nat))).2.2.1
      1 7 rfl rfl⟩

/-!
## The citeezon page loop (`src/src/lib/scrapers/citeezon.js`, `scrapeCiteezen`)

The loop runs `for (let pageNum = currentPage; pageNum <= 100; pageNum++)`:

* poll `stopSignal()`; if set, save `{ currentPage: pageNum }` and return early;
* fetch/extract the page; on error, log, save `{ currentPage: pageNum + 1 }`
  and move on to the next page (the cited lines 142-147);
* on zero extracted stores, break out of the loop ("no more data");
* otherwise dedup-append by `link` to `allStores`, write the whole list to the
  output JSON (the sink), save `{ currentPage: pageNum + 1 }`, continue.

The page fetcher is an oracle from page number to `CzFetch`; the stop signal an
oracle from page number (the iteration at which it is polled) to `Bool`.
-/

/-- A store row extracted by citeezon (`상호명`, `주소`, `tel`, `link`). -/
structure CzStore where
  name : String
  addr : String
  tel : String
  link : String
deriving DecidableEq

/-- Outcome of fetching one citeezon listing page: the `page.goto`/`$$eval`
block throws, or yields the extracted store rows. -/
inductive CzFetch where
  | err
  | ok (stores : List CzStore)
deriving DecidableEq

/-- How a citeezon run ended: early `return` on the stop signal, or fall
through to the completion log (loop exhausted or zero-record break). -/
inductive CzEnd where
  | running
  | completed
  | stoppedBySignal
deriving DecidableEq

/-- The mutable state of a citeezon run. `savedPage` is the persisted Progress
Record (`progressStore['citeezon'].currentPage`), `sink` the output JSON file,
`fetched` the trace of pages whose fetch block was entered. -/
structure CzState where
  allStores : List CzStore
  sink : List CzStore
  savedPage : Option Nat
  fetched : List Nat
  ended : CzEnd
deriving DecidableEq

/-- The dedup-append of one page's rows:
`stores.forEach(s => { if (!allStores.some(e => e.link === s.link)) allStores.push(s) })`. -/
def czAddStores (acc : List CzStore) (stores : List CzStore) : List CzStore :=
  stores.foldl
    (fun acc store => if acc.any (fun e => e.link = store.link) then acc else acc ++ [store])
    acc

/-- `let { currentPage } = progress; if (!currentPage) currentPage = 1;` —
note the falsy test: a stored `0` also defaults to `1`. -/
def czStartPage (saved : Option Nat) : Nat :=
  if saved.getD 0 = 0 then 1 else saved.getD 0

/-- One fuel-indexed unrolling of the citeezon page loop. -/
def czGo (stop : Nat → Bool) (fetch : Nat → CzFetch) : Nat → Nat → CzState → CzState
  | 0, _, s => s
  | fuel + 1, pageNum, s =>
      if pageNum ≤ 100 then
        if stop pageNum then
          { s with savedPage := some pageNum, ended := CzEnd.stoppedBySignal }
        else
          match fetch pageNum with
          | CzFetch.err =>
              czGo stop fetch fuel (pageNum + 1)
                { s with fetched := s.fetched ++ [pageNum], savedPage := some (pageNum + 1) }
          | CzFetch.ok stores =>
              if stores = [] then
                { s with fetched := s.fetched ++ [pageNum], ended := CzEnd.completed }
              else
                czGo stop fetch fuel (pageNum + 1)
                  { s with
                      allStores := czAddStores s.allStores stores,
                      sink := czAddStores s.allStores stores,
                      fetched := s.fetched ++ [pageNum],
                      savedPage := some (pageNum + 1) }
      else { s with ended := CzEnd.completed }

/-- A whole citeezon run from the stored Progress Record and the existing sink
contents (`allStores` is loaded from the output JSON at start). 102 units of
fuel dominate the at most 101 iterations of the `pageNum ≤ 100` loop. -/
def czRun (stop : Nat → Bool) (fetch : Nat → CzFetch) (saved : Option Nat)
    (sink0 : List CzStore) : CzState :=
  czGo stop fetch 102 (czStartPage saved)
    { allStores := sink0, sink := sink0, savedPage := saved, fetched := [],
      ended := CzEnd.running }

/-- The no-skip reading of C2 for the citeezon loop: whenever a unit's fetch
fails (and citeezon never retries a unit, so the failure is final without the
spec's 3-attempt envelope being exhausted), a resume from the persisted record
re-enumerates that unit, i.e. the resume position is not past the failed page. -/
def CzResumesFailedUnits (stop : Nat → Bool) (fetch : Nat → CzFetch)
    (saved : Option Nat) (sink0 : List CzStore) : Prop :=
  ∀ p, fetch p = CzFetch.err → p ∈ (czRun stop fetch saved sink0).fetched →
    czStartPage (czRun stop fetch saved sink0).savedPage ≤ p

/-- The always-false stop signal. -/
def czStopNever : Nat → Bool := fun _ => false

/-- Concrete counterexample environment for C2: page 1's fetch throws, page 2
has no data. -/
def czFetchCex : Nat → CzFetch :=
  fun p => if p = 1 then CzFetch.err else CzFetch.ok []

/-- C2 counterexample: in the citeezon loop a failed page is *not*
re-enumerated on resume. With `czFetchCex`, page 1 fails its single attempt
(citeezon has no retry), yet the run persists `currentPage = 2`, so a resume
starts past the failed page. -/
theorem czNoSkip_counterexample :
    ¬ CzResumesFailedUnits czStopNever czFetchCex none [] := by
  intro h
  have h1 : czFetchCex 1 = CzFetch.err := rfl
  have h2 : (czRun czStopNever czFetchCex none []).fetched = [1, 2] := by rfl
  have h3 : (czRun czStopNever czFetchCex none []).savedPage = some 2 := by rfl
  have := h 1 h1 (by rw [h2]; simp)
  rw [h3] at this
  simp [czStartPage] at this

theorem czStartPage_pos (saved : Option Nat) : 1 ≤ czStartPage saved := by
  unfold czStartPage
  split
  · exact le_refl 1
  · next h => omega

theorem czStartPage_some (p : Nat) (hp : p ≠ 0) : czStartPage (some p) = p := by
  simp [czStartPage, hp]

theorem czGo_fetched_mono (stop : Nat → Bool) (fetch : Nat → CzFetch) :
    ∀ (fuel pageNum : Nat) (s : CzState),
      ∃ t, (czGo stop fetch fuel pageNum s).fetched = s.fetched ++ t := by
  intro fuel
  induction fuel with
  | zero => intro pageNum s; exact ⟨[], by simp [czGo]⟩
  | succ n ih =>
      intro pageNum s
      unfold czGo
      by_cases hle : pageNum ≤ 100
      · rw [if_pos hle]
        by_cases hstop : stop pageNum
        · simp [hstop]
        · simp only [hstop, Bool.false_eq_true, if_false]
          rcases hf : fetch pageNum with _ | stores
          · simp only []
            obtain ⟨t, ht⟩ := ih (pageNum + 1)
              { s with fetched := s.fetched ++ [pageNum], savedPage := some (pageNum + 1) }
            exact ⟨pageNum :: t, by rw [ht]; simp⟩
          · simp only []
            by_cases hs : stores = []
            · rw [if_pos hs]
              exact ⟨[pageNum], rfl⟩
            · rw [if_neg hs]
              obtain ⟨t, ht⟩ := ih (pageNum + 1)
                { s with
                    allStores := czAddStores s.allStores stores,
                    sink := czAddStores s.allStores stores,
                    fetched := s.fetched ++ [pageNum],
                    savedPage := some (pageNum + 1) }
              exact ⟨pageNum :: t, by rw [ht]; simp⟩
      · rw [if_neg hle]
        exact ⟨[], by simp⟩

theorem czGo_attempted_below_saved (stop : Nat → Bool) (fetch : Nat → CzFetch) :
    ∀ (fuel pageNum : Nat) (s : CzState) (p : Nat),
      1 ≤ pageNum → czStartPage s.savedPage ≤ pageNum → pageNum ≤ p →
      p < czStartPage ((czGo stop fetch fuel pageNum s).savedPage) →
      p ∈ (czGo stop fetch fuel pageNum s).fetched := by
  intro fuel
  induction fuel with
  | zero =>
      intro pageNum s p h1 h2 h3 h4
      simp only [czGo] at h4
      omega
  | succ n ih =>
      intro pageNum s p h1 h2 h3 h4
      rw [czGo] at h4 ⊢
      by_cases hle : pageNum ≤ 100
      · rw [if_pos hle] at h4 ⊢
        by_cases hstop : stop pageNum
        · simp only [hstop, if_true] at h4
          rw [czStartPage_some pageNum (by omega)] at h4
          omega
        · simp only [hstop, Bool.false_eq_true, if_false] at h4 ⊢
          rcases hf : fetch pageNum with _ | stores
          · rw [hf] at h4
            simp only [] at h4 ⊢
            rcases Nat.eq_or_lt_of_le h3 with hcase | hcase
            · obtain ⟨t, ht⟩ := czGo_fetched_mono stop fetch n (pageNum + 1)
                { s with fetched := s.fetched ++ [pageNum], savedPage := some (pageNum + 1) }
              rw [ht, ← hcase]
              simp
            · exact ih (pageNum + 1) _ p (by omega)
                (by rw [czStartPage_some (pageNum + 1) (by omega)]) hcase h4
          · rw [hf] at h4
            simp only [] at h4 ⊢
            by_cases hs : stores = []
            · rw [if_pos hs] at h4
              simp only at h4
              omega
            · rw [if_neg hs] at h4 ⊢
              rcases Nat.eq_or_lt_of_le h3 with hcase | hcase
              · obtain ⟨t, ht⟩ := czGo_fetched_mono stop fetch n (pageNum + 1)
                  { s with
                      allStores := czAddStores s.allStores stores,
                      sink := czAddStores s.allStores stores,
                      fetched := s.fetched ++ [pageNum],
                      savedPage := some (pageNum + 1) }
                rw [ht, ← hcase]
                simp
              · exact ih (pageNum + 1) _ p (by omega)
                  (by rw [czStartPage_some (pageNum + 1) (by omega)]) hcase h4
      · rw [if_neg hle] at h4 ⊢
        simp only at h4
        omega

/-- C2 (amended): the citeezon loop never advances the persisted Progress
Record past a unit that was never started: every page from the resume position
of the initial record up to (but excluding) the resume position of the final
record was attempted (its fetch block entered) during the run.  A page whose
single attempt *failed* may however be skipped (see the counterexample): the
record is advanced to the next page on a caught per-page error. -/
theorem czNoSkip_unattempted (stop : Nat → Bool) (fetch : Nat → CzFetch)
    (saved : Option Nat) (sink0 : List CzStore) (p : Nat)
    (h1 : czStartPage saved ≤ p)
    (h2 : p < czStartPage ((czRun stop fetch saved sink0).savedPage)) :
    p ∈ (czRun stop fetch saved sink0).fetched := by
  unfold czRun at h2 ⊢
  exact czGo_attempted_below_saved stop fetch 102 (czStartPage saved)
    { allStores := sink0, sink := sink0, savedPage := saved, fetched := [],
      ended := CzEnd.running } p (czStartPage_pos saved) (le_refl _) h1 h2

/-- Witness for the amended C2: in the concrete counterexample run the failed
page 1 lies below the final resume position 2 and was indeed attempted. -/
theorem czNoSkip_unattempted_witness :
    1 ∈ (czRun czStopNever czFetchCex none []).fetched :=
  czNoSkip_unattempted czStopNever czFetchCex none [] 1 (by decide) (by decide)

/-!
## The okgolf page/store loop (`src/src/lib/scrapers/okgolf.js`, `scrapeOkongolf`)

`for (let pageNum = currentPage; pageNum <= MAX_PAGE; pageNum++)` with
`MAX_PAGE = 2`; each page's rows are handed to `processStore` through a
`p-limit(5)` pool (modelled sequentially in row order: the pool only bounds
concurrency, and all claims settled on this model concern runs in which the
relative completion order is immaterial).  On completion the source deletes the
on-disk `PROGRESS_FILE` — but `readProgress`/`saveProgress` live in the
in-memory `progressStore`, which the completion path never clears.
-/

/-- A table row extracted by okgolf. -/
structure OkRow where
  number : Nat
  storeName : String
  phoneNumber : String
  address : String
  imgSrc : String
deriving DecidableEq

/-- `extractRoomCount(imgSrc)`: the regex `/new_icon2_(\d+)\.gif$/` — the
digit run sandwiched between a trailing `new_icon2_` and the final `.gif`,
parsed as a number; `null` when the pattern does not match. -/
def extractRoomCount (imgSrc : String) : Option Nat :=
  let r := imgSrc.data.reverse
  if r.take 4 = ['f', 'i', 'g', '.'] then
    let rest := r.drop 4
    let digs := rest.takeWhile Char.isDigit
    if digs.isEmpty then none
    else if (rest.drop digs.length).take 10 = "new_icon2_".data.reverse then
      some (digs.reverse.foldl (fun a c => a * 10 + (c.toNat - 48)) 0)
    else none
  else none

/-- `isValidNumber(number)`: `String(number)` stripped of non-digits must
match `/^\d+$/`; i.e. the decimal representation contains a digit. -/
def isValidNumber (number : Nat) : Bool :=
  !((Nat.repr number).data.filter Char.isDigit).isEmpty

/-- `isValidStoreName(nameStr)`: nonempty. -/
def isValidStoreName (nameStr : String) : Bool :=
  decide (0 < nameStr.length)

/-- `isValidAddress(addressStr)`: nonempty. -/
def isValidAddress (addressStr : String) : Bool :=
  decide (0 < addressStr.length)

/-- The detailed record pushed onto `allStores` (phone `"-"` becomes `null`). -/
structure OkDetailed where
  number : Nat
  storeName : String
  phoneNumber : Option String
  address : String
  roomCount : Option Nat
deriving DecidableEq

/-- Building the detailed store record from a row. -/
def okDetailed (row : OkRow) : OkDetailed :=
  { number := row.number,
    storeName := row.storeName,
    phoneNumber := if row.phoneNumber = "-" then none else some row.phoneNumber,
    address := row.address,
    roomCount := extractRoomCount row.imgSrc }

/-- Outcome of loading one okgolf listing page: `page.goto` throws,
`waitForSelector('table tbody')` times out, or the rows are extracted. -/
inductive OkFetch where
  | gotoErr
  | tableErr
  | rows (l : List OkRow)

/-- The okgolf Progress Record shape `{ currentPage, processedIndexes }`. -/
structure OkProgress where
  currentPage : Nat
  processedIndexes : Nat → List Nat

/-- How an okgolf run ended. `crashed` models a `ScraperStoppedError` (or any
error) reaching the top-level `catch`, whose body references the out-of-scope
variable `store` and therefore itself throws. -/
inductive OkEnd where
  | running
  | completed
  | crashed
deriving DecidableEq

/-- The mutable state of an okgolf run. `store` is the in-memory
`progressStore['okongolf_store']` entry; `progressFile` the existence of the
on-disk `progress_okongolf.json`; `pi` the local `processedIndexes` object. -/
structure OkState where
  allStores : List OkDetailed
  sink : List OkDetailed
  pi : Nat → List Nat
  store : Option OkProgress
  progressFile : Bool
  status : Status
  isStopping : Bool
  fetchedPages : List Nat
  outcome : OkEnd

/-- One `processStore(store, index)` call. Returns the new state and whether a
`ScraperStoppedError` was thrown. Note that when the status reads `stopped`
but `isStopping` is already set, processing falls through and continues. -/
def okRowStep (polRow : Nat → Nat → Status) (pageNum idx : Nat) (row : OkRow)
    (s : OkState) : OkState × Bool :=
  if polRow pageNum idx = Status.stopped && !s.isStopping then
    ({ s with
        isStopping := true,
        store := some { currentPage := pageNum, processedIndexes := s.pi },
        status := Status.idle }, true)
  else if (s.pi pageNum).contains idx then (s, false)
  else if isValidNumber row.number && isValidStoreName row.storeName &&
      isValidPhoneNumber row.phoneNumber && isValidAddress row.address then
    let all := s.allStores ++ [okDetailed row]
    let pi2 := fun p => if p = pageNum then s.pi pageNum ++ [idx] else s.pi p
    ({ s with
        allStores := all, sink := all, pi := pi2,
        store := some { currentPage := pageNum, processedIndexes := pi2 } }, false)
  else (s, false)

/-- The row pool of one page, in row order. A thrown `ScraperStoppedError`
rejects the `Promise.all`, abandoning the remaining rows. -/
def okRowsGo (polRow : Nat → Nat → Status) (pageNum : Nat) :
    Nat → List OkRow → OkState → OkState × Bool
  | _, [], s => (s, false)
  | idx, row :: rest, s =>
      match okRowStep polRow pageNum idx row s with
      | (s2, true) => (s2, true)
      | (s2, false) => okRowsGo polRow pageNum (idx + 1) rest s2

/-- The completion block after the page loop: delete the on-disk
`PROGRESS_FILE` if it exists, close the browser, `resetScraper` (status back to
`idle`).  The in-memory `progressStore` entry is untouched. -/
def okFinalize (s : OkState) : OkState :=
  { s with progressFile := false, status := Status.idle, outcome := OkEnd.completed }

/-- One fuel-indexed unrolling of the okgolf page loop (`MAX_PAGE = 2`). -/
def okGo (polPage : Nat → Status) (polRow : Nat → Nat → Status) (fetch : Nat → OkFetch) :
    Nat → Nat → OkState → OkState
  | 0, _, s => s
  | fuel + 1, pageNum, s =>
      if pageNum ≤ 2 then
        if polPage pageNum = Status.stopped && !s.isStopping then
          { s with
              isStopping := true,
              store := some { currentPage := pageNum, processedIndexes := s.pi },
              status := Status.idle, outcome := OkEnd.crashed }
        else
          match fetch pageNum with
          | OkFetch.gotoErr =>
              okGo polPage polRow fetch fuel (pageNum + 1)
                { s with fetchedPages := s.fetchedPages ++ [pageNum] }
          | OkFetch.tableErr =>
              okGo polPage polRow fetch fuel (pageNum + 1)
                { s with fetchedPages := s.fetchedPages ++ [pageNum] }
          | OkFetch.rows l =>
              if l = [] then
                okFinalize { s with fetchedPages := s.fetchedPages ++ [pageNum] }
              else
                match okRowsGo polRow pageNum 0 l
                    { s with fetchedPages := s.fetchedPages ++ [pageNum] } with
                | (s2, true) => { s2 with outcome := OkEnd.crashed }
                | (s2, false) =>
                    okGo polPage polRow fetch fuel (pageNum + 1)
                      { s2 with
                          store := some { currentPage := pageNum + 1,
                                          processedIndexes := s2.pi } }
      else okFinalize s

/-- `if (currentPage === undefined) currentPage = 1` applied to the stored
record. -/
def okStartPage : Option OkProgress → Nat
  | none => 1
  | some p => p.currentPage

/-- `if (processedIndexes === undefined) processedIndexes = {}`. -/
def okStartPi : Option OkProgress → (Nat → List Nat)
  | none => fun _ => []
  | some p => p.processedIndexes

/-- A whole okgolf run from the stored Progress Record, the on-disk progress
file flag, and the existing sink contents. 4 units of fuel dominate the at
most 3 iterations of the `pageNum ≤ 2` loop. -/
def okRun (polPage : Nat → Status) (polRow : Nat → Nat → Status)
    (fetch : Nat → OkFetch) (store0 : Option OkProgress) (file0 : Bool)
    (sink0 : List OkDetailed) : OkState :=
  okGo polPage polRow fetch 4 (okStartPage store0)
    { allStores := sink0, sink := sink0, pi := okStartPi store0, store := store0,
      progressFile := file0, status := Status.running, isStopping := false,
      fetchedPages := [], outcome := OkEnd.running }

/-- The always-`running` page poll. -/
def okPolRunning : Nat → Status := fun _ => Status.running

/-- The always-`running` row poll. -/
def okPolRowRunning : Nat → Nat → Status := fun _ _ => Status.running

/-- Failing input for C7: both pages fetch one valid row, the run completes
normally. -/
def okFetchC7 : Nat → OkFetch :=
  fun p =>
    if p = 1 then OkFetch.rows [{ number := 1, storeName := "A", phoneNumber := "-",
                                  address := "a", imgSrc := "" }]
    else OkFetch.rows [{ number := 2, storeName := "B", phoneNumber := "-",
                         address := "b", imgSrc := "" }]

/-- C7 (code bug): on normal exhaustion the okgolf run resets the status to
`idle`, deletes the on-disk progress file, and the sink holds the final
Accumulator — but the Progress Record in the checkpoint store (the in-memory
`progressStore`) is *not* deleted: it still holds `currentPage = 3`, so a
subsequent read resumes at page 3 instead of yielding the default (page 1,
nothing to resume).  Evaluated at the concrete failing input `okFetchC7`. -/
theorem okCompletion_keeps_progressRecord :
    (okRun okPolRunning okPolRowRunning okFetchC7 none true []).outcome = OkEnd.completed ∧
    (okRun okPolRunning okPolRowRunning okFetchC7 none true []).status = Status.idle ∧
    (okRun okPolRunning okPolRowRunning okFetchC7 none true []).progressFile = false ∧
    (okRun okPolRunning okPolRowRunning okFetchC7 none true []).store.isSome = true ∧
    okStartPage (okRun okPolRunning okPolRowRunning okFetchC7 none true []).store = 3 ∧
    (okRun okPolRunning okPolRowRunning okFetchC7 none true []).sink =
      (okRun okPolRunning okPolRowRunning okFetchC7 none true []).allStores ∧
    (okRun okPolRunning okPolRowRunning okFetchC7 none true []).allStores.length = 2 :=
  ⟨rfl, rfl, rfl, rfl, rfl, rfl, rfl⟩

/-- C6: whenever a fetched page yields zero extracted records, enumeration
ends immediately and normally: in the citeezon loop the iteration marks the
run completed after fetching only that page (no later page is visited), and in
the okgolf loop the completion block runs right away; neither path is an
error path. -/
theorem zeroRecords_ends_enumeration :
    (∀ (stop : Nat → Bool) (fetch : Nat → CzFetch) (fuel pageNum : Nat) (s : CzState),
      pageNum ≤ 100 → stop pageNum = false → fetch pageNum = CzFetch.ok [] →
      czGo stop fetch (fuel + 1) pageNum s =
        { s with fetched := s.fetched ++ [pageNum], ended := CzEnd.completed }) ∧
    (∀ (polPage : Nat → Status) (polRow : Nat → Nat → Status) (fetch : Nat → OkFetch)
      (fuel pageNum : Nat) (s : OkState),
      pageNum ≤ 2 → polPage pageNum ≠ Status.stopped → fetch pageNum = OkFetch.rows [] →
      okGo polPage polRow fetch (fuel + 1) pageNum s =
        okFinalize { s with fetchedPages := s.fetchedPages ++ [pageNum] }) := by
  constructor
  · intro stop fetch fuel pageNum s h1 h2 h3
    rw [czGo, if_pos h1, h2]
    simp only [Bool.false_eq_true, if_false, h3]
    simp
  · intro polPage polRow fetch fuel pageNum s h1 h2 h3
    rw [okGo, if_pos h1, h3]
    simp only [h2, decide_eq_true_eq, Bool.false_and, Bool.and_eq_true, not_false_eq_true,
      decide_eq_false, Bool.false_eq_true, if_false]
    simp [h2]

/-- Witness for C6 at concrete inputs: page 2 of the citeezon counterexample
environment is empty and terminates the run there; an okgolf page-1 fetch with
zero rows goes straight to the completion block. -/
theorem zeroRecords_ends_enumeration_witness :
    czGo czStopNever czFetchCex 1 2
      { allStores := [], sink := [], savedPage := none, fetched := [],
        ended := CzEnd.running } =
      { allStores := [], sink := [], savedPage := none, fetched := [2],
        ended := CzEnd.completed } ∧
    okGo okPolRunning okPolRowRunning (fun _ => OkFetch.rows []) 1 1
      { allStores := [], sink := [], pi := fun _ => [], store := none,
        progressFile := true, status := Status.running, isStopping := false,
        fetchedPages := [], outcome := OkEnd.running } =
      okFinalize
        { allStores := [], sink := [], pi := fun _ => [], store := none,
          progressFile := true, status := Status.running, isStopping := false,
          fetchedPages := [1], outcome := OkEnd.running } := by
  constructor
  · exact zeroRecords_ends_enumeration.1 czStopNever czFetchCex 0 2 _
      (by decide) rfl rfl
  · exact zeroRecords_ends_enumeration.2 okPolRunning okPolRowRunning
      (fun _ => OkFetch.rows []) 0 1 _ (by decide) (by decide) rfl

/-!
## The fieldzone page loop (`src/unnamed/part_003`, `scrapeFieldzone`)

`for (let pageNum = currentPage; pageNum <= MAX_PAGE; pageNum++)` with
`MAX_PAGE = 100`.  Each page's stores go through a `p-limit(5)` pool (modelled
sequentially).  The per-page `catch` at the cited lines 203-212 distinguishes
`ScraperStoppedError` (break) from every other error, which it logs and then
*rethrows* to the top-level `catch` — whose body calls `ogError`, an undefined
identifier, so the whole job aborts.  The `aborted` outcome models an error
reaching the job's top level.
-/

/-- A store row extracted by fieldzone
(`번호`, `상호명`, `tel`, `주소`, `상세정보`, `기기`). -/
structure FzStore where
  num : String
  name : String
  tel : String
  addr : String
  detail : String
  device : String
deriving DecidableEq

/-- Outcome of loading and extracting one fieldzone page. -/
inductive FzFetch where
  | err
  | stores (l : List FzStore)

/-- How a fieldzone run ended: `aborted` means a per-page error was rethrown
out of the loop to the top-level handler. -/
inductive FzEnd where
  | running
  | completed
  | stopped
  | aborted
deriving DecidableEq

/-- The mutable state of a fieldzone run. -/
structure FzState where
  allStores : List FzStore
  sink : List FzStore
  saved : Option Nat
  status : Status
  progressFile : Bool
  fetched : List Nat
  outcome : FzEnd

/-- The `processStore` pool of one page, in store order: poll the registry
(on `stopped`: save `{ currentPage: pageNum }` and throw `ScraperStoppedError`,
with no `resetScraper`), otherwise push the store and rewrite the sink. -/
def fzRows (pol : Nat → Nat → Status) (pageNum : Nat) :
    Nat → List FzStore → FzState → FzState × Bool
  | _, [], s => (s, false)
  | idx, st :: rest, s =>
      if pol pageNum idx = Status.stopped then
        ({ s with saved := some pageNum, status := Status.stopped }, true)
      else
        fzRows pol pageNum (idx + 1) rest
          { s with allStores := s.allStores ++ [st], sink := s.allStores ++ [st] }

/-- The completion block, guarded by `getScraperStatus !== 'stopped'`: delete
the progress file if present and `resetScraper`. -/
def fzComplete (s : FzState) : FzState :=
  { s with progressFile := false, status := Status.idle, outcome := FzEnd.completed }

/-- One fuel-indexed unrolling of the fieldzone page loop.  A page fetch error
is logged and rethrown (the cited lines 203-212), aborting the job. -/
def fzGo (pol : Nat → Nat → Status) (fetch : Nat → FzFetch) (hasNext : Nat → Bool) :
    Nat → Nat → FzState → FzState
  | 0, _, s => s
  | fuel + 1, pageNum, s =>
      if pageNum ≤ 100 then
        match fetch pageNum with
        | FzFetch.err =>
            { s with fetched := s.fetched ++ [pageNum], outcome := FzEnd.aborted }
        | FzFetch.stores l =>
            if l = [] then
              fzComplete { s with fetched := s.fetched ++ [pageNum] }
            else
              match fzRows pol pageNum 0 l { s with fetched := s.fetched ++ [pageNum] } with
              | (s2, true) => { s2 with outcome := FzEnd.stopped }
              | (s2, false) =>
                  if hasNext pageNum then
                    fzGo pol fetch hasNext fuel (pageNum + 1)
                      { s2 with saved := some (pageNum + 1) }
                  else fzComplete { s2 with saved := some (pageNum + 1) }
      else fzComplete s

/-- A whole fieldzone run; the resume page uses the same falsy defaulting
`if (!currentPage) currentPage = 1` as citeezon, hence `czStartPage`. -/
def fzRun (pol : Nat → Nat → Status) (fetch : Nat → FzFetch) (hasNext : Nat → Bool)
    (saved : Option Nat) (file0 : Bool) (sink0 : List FzStore) : FzState :=
  fzGo pol fetch hasNext 102 (czStartPage saved)
    { allStores := sink0, sink := sink0, saved := saved, status := Status.running,
      progressFile := file0, fetched := [], outcome := FzEnd.running }

/-- C4's reading for the fieldzone loop: a per-unit (per-page) failure never
aborts the whole job, i.e. no run ends with an error having reached the job's
top level. -/
def FzPerUnitFailuresContained (pol : Nat → Nat → Status) (fetch : Nat → FzFetch)
    (hasNext : Nat → Bool) (saved : Option Nat) (file0 : Bool)
    (sink0 : List FzStore) : Prop :=
  (fzRun pol fetch hasNext saved file0 sink0).outcome ≠ FzEnd.aborted

/-- The always-`running` fieldzone poll. -/
def fzPolNever : Nat → Nat → Status := fun _ _ => Status.running

/-- Counterexample environment for C4: page 1 yields one store, page 2's fetch
throws. -/
def fzFetchCex : Nat → FzFetch :=
  fun p =>
    if p = 1 then FzFetch.stores [{ num := "no.1", name := "A", tel := "-",
                                    addr := "a", detail := "", device := "" }]
    else FzFetch.err

/-- C4 counterexample: in fieldzone a transient per-page failure is *not*
contained — with `fzFetchCex` the failure of page 2 is rethrown to the job's
top level (whose handler is itself broken), the run aborts, and page 3 and
beyond are never attempted. -/
theorem fzFailure_aborts_counterexample :
    ¬ FzPerUnitFailuresContained fzPolNever fzFetchCex (fun _ => true) none true [] ∧
    fzFetchCex 2 = FzFetch.err ∧
    (fzRun fzPolNever fzFetchCex (fun _ => true) none true []).fetched = [1, 2] := by
  refine ⟨?_, rfl, rfl⟩
  intro h
  exact h rfl

/-!
## The thekgolf detail loop (`src/unnamed/part_004`, `scrapeTheKgolf`)

`for (let shopIndex = currentShopIndex; shopIndex < shops.length; shopIndex++)`:

* poll the registry; on `stopped`: save `{ currentShopIndex: shopIndex }`,
  `resetScraper` (status `idle`), throw `ScraperStoppedError`, which the
  top-level catch absorbs, retaining the Progress Record (lines 84-91);
* a shop without `shopId` is skipped with a warning (`continue`, so the
  bottom-of-loop progress update is skipped too);
* the POST fetch: on error, log, save `{ currentShopIndex: shopIndex }` and
  `continue` to the next shop (lines 148-157); on a response without
  `shopDetail`, warn; on success append the detailed shop and rewrite the sink;
* at the bottom of the loop save `{ currentShopIndex: shopIndex + 1 }`;
* after the loop: final sink write and `resetScraper`.
-/

/-- A shop from the input file (`name` and the steering `shopId`). -/
structure TkShop where
  name : String
  shopId : Option Nat
deriving DecidableEq

/-- The detailed shop appended on success: the shop plus its extracted
sensors (`{ sensorName, sensorCount }` pairs). -/
structure TkDetailed where
  shop : TkShop
  sensors : List (String × String)
deriving DecidableEq

/-- Outcome of one shop's POST fetch: the request throws, the response lacks
`shopDetail`, or the sensor list is extracted. -/
inductive TkFetch where
  | err
  | noDetail
  | ok (sensors : List (String × String))

/-- How a thekgolf run ended. -/
inductive TkEnd where
  | running
  | completed
  | stopped
deriving DecidableEq

/-- The mutable state of a thekgolf run. `saved` is the persisted
`{ currentShopIndex }` record, `fetched` the trace of shop indexes whose POST
was issued. -/
structure TkState where
  detailedShops : List TkDetailed
  sink : List TkDetailed
  saved : Option Nat
  status : Status
  fetched : List Nat
  outcome : TkEnd
deriving DecidableEq

/-- The body of one loop iteration for shop index `i`, after a `running` poll. -/
def tkUnit (fetch : Nat → TkFetch) (shops : List TkShop) (i : Nat) (s : TkState) : TkState :=
  match shops[i]? with
  | none => s
  | some shop =>
      match shop.shopId with
      | none => s
      | some _ =>
          match fetch i with
          | TkFetch.err =>
              { s with fetched := s.fetched ++ [i], saved := some i }
          | TkFetch.noDetail =>
              { s with fetched := s.fetched ++ [i], saved := some (i + 1) }
          | TkFetch.ok sensors =>
              { s with
                  detailedShops := s.detailedShops ++ [{ shop := shop, sensors := sensors }],
                  sink := s.detailedShops ++ [{ shop := shop, sensors := sensors }],
                  fetched := s.fetched ++ [i],
                  saved := some (i + 1) }

/-- The `stopped`-poll path: save the record at the current, not yet processed
index, `resetScraper`, throw; the top-level catch retains the record. -/
def tkHalt (i : Nat) (s : TkState) : TkState :=
  { s with saved := some i, status := Status.idle, outcome := TkEnd.stopped }

/-- Normal loop exhaustion: final sink write and `resetScraper`. -/
def tkFinalize (s : TkState) : TkState :=
  { s with sink := s.detailedShops, status := Status.idle, outcome := TkEnd.completed }

/-- One fuel-indexed unrolling of the thekgolf shop loop. -/
def tkGo (pol : Nat → Status) (fetch : Nat → TkFetch) (shops : List TkShop) :
    Nat → Nat → TkState → TkState
  | 0, _, s => s
  | fuel + 1, i, s =>
      if i < shops.length then
        if pol i = Status.stopped then tkHalt i s
        else tkGo pol fetch shops fuel (i + 1) (tkUnit fetch shops i s)
      else tkFinalize s

/-- `if (currentShopIndex === undefined) currentShopIndex = 0` — unlike the
page-based loops this tests `=== undefined`, not falsiness. -/
def tkStart (saved : Option Nat) : Nat := saved.getD 0

/-- A whole thekgolf run from the stored Progress Record and the existing sink
contents (loaded into `detailedShops` at start).  `shops.length + 1` units of
fuel dominate the loop. -/
def tkRun (pol : Nat → Status) (fetch : Nat → TkFetch) (shops : List TkShop)
    (saved : Option Nat) (sink0 : List TkDetailed) : TkState :=
  tkGo pol fetch shops (shops.length + 1) (tkStart saved)
    { detailedShops := sink0, sink := sink0, saved := saved,
      status := Status.running, fetched := [], outcome := TkEnd.running }

/-- The always-`running` poll: no stop request during the run. -/
def tkPolNever : Nat → Status := fun _ => Status.running

/-- A stop request arriving while unit `k` is the next unit: every poll from
index `k` on reads `stopped`. -/
def tkPolStopAt (k : Nat) : Nat → Status :=
  fun i => if k ≤ i then Status.stopped else Status.running

/-- Proof helper: the loop body applied to exactly `n` consecutive units
starting at `i`, with no stop polls. -/
def tkSeg (fetch : Nat → TkFetch) (shops : List TkShop) : Nat → Nat → TkState → TkState
  | 0, _, s => s
  | n + 1, i, s => tkSeg fetch shops n (i + 1) (tkUnit fetch shops i s)

/-- Proof helper: the records produced by units `[i, i + n)` alone. -/
def tkNew (fetch : Nat → TkFetch) (shops : List TkShop) : Nat → Nat → List TkDetailed
  | 0, _ => []
  | n + 1, i =>
      (match shops[i]? with
       | none => []
       | some shop =>
           match shop.shopId with
           | none => []
           | some _ =>
               match fetch i with
               | TkFetch.ok sensors => [{ shop := shop, sensors := sensors }]
               | _ => []) ++ tkNew fetch shops n (i + 1)

theorem tkGo_no_stop (pol : Nat → Status) (fetch : Nat → TkFetch) (shops : List TkShop)
    (hpol : ∀ j, pol j ≠ Status.stopped) :
    ∀ (fuel i : Nat) (s : TkState), shops.length - i < fuel →
      tkGo pol fetch shops fuel i s =
        tkFinalize (tkSeg fetch shops (shops.length - i) i s) := by
  intro fuel
  induction fuel with
  | zero => intro i s h; omega
  | succ n ih =>
      intro i s h
      rw [tkGo]
      by_cases hi : i < shops.length
      · rw [if_pos hi]
        have hp : ¬ pol i = Status.stopped := hpol i
        rw [if_neg hp]
        rw [ih (i + 1) (tkUnit fetch shops i s) (by omega)]
        have hlen : shops.length - i = (shops.length - (i + 1)) + 1 := by omega
        rw [hlen, tkSeg]
      · rw [if_neg hi]
        have hz : shops.length - i = 0 := by omega
        rw [hz, tkSeg]

theorem tkGo_stop_at (pol : Nat → Status) (fetch : Nat → TkFetch) (shops : List TkShop)
    (k : Nat) (hk : k < shops.length) (hpol2 : pol k = Status.stopped) :
    ∀ (fuel i : Nat) (s : TkState),
      (∀ j, i ≤ j → j < k → pol j ≠ Status.stopped) → i ≤ k → k - i < fuel →
      tkGo pol fetch shops fuel i s = tkHalt k (tkSeg fetch shops (k - i) i s) := by
  intro fuel
  induction fuel with
  | zero => intro i s hpol1 hik h; omega
  | succ n ih =>
      intro i s hpol1 hik h
      rw [tkGo]
      have hi : i < shops.length := by omega
      rw [if_pos hi]
      rcases Nat.eq_or_lt_of_le hik with hcase | hcase
      · subst hcase
        rw [if_pos hpol2]
        have hz : i - i = 0 := by omega
        rw [hz, tkSeg]
      · have hp : ¬ pol i = Status.stopped := hpol1 i (le_refl i) hcase
        rw [if_neg hp]
        rw [ih (i + 1) (tkUnit fetch shops i s)
          (fun j hj1 hj2 => hpol1 j (by omega) hj2) (by omega) (by omega)]
        have hlen : k - i = (k - (i + 1)) + 1 := by omega
        rw [hlen, tkSeg]

theorem tkSeg_add (fetch : Nat → TkFetch) (shops : List TkShop) :
    ∀ (m n i : Nat) (s : TkState),
      tkSeg fetch shops (m + n) i s =
        tkSeg fetch shops n (i + m) (tkSeg fetch shops m i s) := by
  intro m
  induction m with
  | zero => intro n i s; simp [tkSeg]
  | succ p ih =>
      intro n i s
      have h1 : p + 1 + n = (p + n) + 1 := by omega
      rw [h1, tkSeg, tkSeg, ih]
      have h2 : i + 1 + p = i + (p + 1) := by omega
      rw [h2]

theorem tkNew_add (fetch : Nat → TkFetch) (shops : List TkShop) :
    ∀ (m n i : Nat),
      tkNew fetch shops (m + n) i =
        tkNew fetch shops m i ++ tkNew fetch shops n (i + m) := by
  intro m
  induction m with
  | zero => intro n i; simp [tkNew]
  | succ p ih =>
      intro n i
      have h1 : p + 1 + n = (p + n) + 1 := by omega
      rw [h1, tkNew, tkNew, ih]
      have h2 : i + 1 + p = i + (p + 1) := by omega
      rw [h2, List.append_assoc]

theorem tkUnit_ds (fetch : Nat → TkFetch) (shops : List TkShop) (i : Nat) (s : TkState) :
    (tkUnit fetch shops i s).detailedShops =
      s.detailedShops ++ tkNew fetch shops 1 i := by
  rw [tkNew, tkNew]
  unfold tkUnit
  rcases hs : shops[i]? with _ | shop <;> simp only [hs]
  · simp
  · rcases hid : shop.shopId with _ | sid <;> simp only [hid]
    · simp
    · rcases hf : fetch i with _ | _ | sensors <;> simp only [hf] <;> simp

theorem tkSeg_ds (fetch : Nat → TkFetch) (shops : List TkShop) :
    ∀ (n i : Nat) (s : TkState),
      (tkSeg fetch shops n i s).detailedShops =
        s.detailedShops ++ tkNew fetch shops n i := by
  intro n
  induction n with
  | zero => intro i s; simp [tkSeg, tkNew]
  | succ p ih =>
      intro i s
      rw [tkSeg, ih, tkUnit_ds]
      simp only [tkNew, List.append_nil, List.append_assoc]

theorem tkUnit_sink (fetch : Nat → TkFetch) (shops : List TkShop) (i : Nat) (s : TkState)
    (h : s.sink = s.detailedShops) :
    (tkUnit fetch shops i s).sink = (tkUnit fetch shops i s).detailedShops := by
  unfold tkUnit
  rcases hs : shops[i]? with _ | shop <;> simp only [hs]
  · exact h
  · rcases hid : shop.shopId with _ | sid <;> simp only [hid]
    · exact h
    · rcases hf : fetch i with _ | _ | sensors <;> simp only [hf] <;> simp [h]

theorem tkSeg_sink (fetch : Nat → TkFetch) (shops : List TkShop) :
    ∀ (n i : Nat) (s : TkState), s.sink = s.detailedShops →
      (tkSeg fetch shops n i s).sink = (tkSeg fetch shops n i s).detailedShops := by
  intro n
  induction n with
  | zero => intro i s h; exact h
  | succ p ih =>
      intro i s h
      rw [tkSeg]
      exact ih (i + 1) (tkUnit fetch shops i s) (tkUnit_sink fetch shops i s h)

theorem tkUnit_fetched (fetch : Nat → TkFetch) (shops : List TkShop) (i : Nat) (s : TkState) :
    (tkUnit fetch shops i s).fetched = s.fetched ∨
    (tkUnit fetch shops i s).fetched = s.fetched ++ [i] := by
  unfold tkUnit
  rcases hs : shops[i]? with _ | shop <;> simp only [hs]
  · simp
  · rcases hid : shop.shopId with _ | sid <;> simp only [hid]
    · simp
    · rcases hf : fetch i with _ | _ | sensors <;> simp only [hf] <;> simp

theorem tkUnit_fetched_of_id (fetch : Nat → TkFetch) (shops : List TkShop) (i : Nat)
    (s : TkState) (sh : TkShop) (hsh : shops[i]? = some sh)
    (hid : sh.shopId.isSome = true) :
    (tkUnit fetch shops i s).fetched = s.fetched ++ [i] := by
  unfold tkUnit
  rw [hsh]
  rcases hid2 : sh.shopId with _ | sid
  · rw [hid2] at hid; simp at hid
  · simp only [hid2]
    rcases hf : fetch i with _ | _ | sensors <;> simp [hf]

theorem tkSeg_fetched_mono (fetch : Nat → TkFetch) (shops : List TkShop) :
    ∀ (n i : Nat) (s : TkState),
      ∃ t, (tkSeg fetch shops n i s).fetched = s.fetched ++ t := by
  intro n
  induction n with
  | zero => intro i s; exact ⟨[], by simp [tkSeg]⟩
  | succ p ih =>
      intro i s
      rw [tkSeg]
      obtain ⟨t, ht⟩ := ih (i + 1) (tkUnit fetch shops i s)
      rcases tkUnit_fetched fetch shops i s with hu | hu
      · exact ⟨t, by rw [ht, hu]⟩
      · exact ⟨i :: t, by rw [ht, hu]; simp⟩

theorem tkSeg_fetched_range (fetch : Nat → TkFetch) (shops : List TkShop) :
    ∀ (n i : Nat) (s : TkState) (j : Nat),
      j ∈ (tkSeg fetch shops n i s).fetched →
      j ∈ s.fetched ∨ (i ≤ j ∧ j < i + n) := by
  intro n
  induction n with
  | zero => intro i s j h; exact Or.inl h
  | succ p ih =>
      intro i s j h
      rw [tkSeg] at h
      rcases ih (i + 1) (tkUnit fetch shops i s) j h with hin | hrange
      · rcases tkUnit_fetched fetch shops i s with hu | hu
        · rw [hu] at hin
          exact Or.inl hin
        · rw [hu] at hin
          rcases List.mem_append.mp hin with h1 | h1
          · exact Or.inl h1
          · simp at h1
            subst h1
            exact Or.inr ⟨le_refl j, by omega⟩
      · exact Or.inr ⟨by omega, by omega⟩

theorem tkSeg_fetches_ids (fetch : Nat → TkFetch) (shops : List TkShop) :
    ∀ (n i : Nat) (s : TkState) (j : Nat) (sh : TkShop),
      i ≤ j → j < i + n → shops[j]? = some sh → sh.shopId.isSome = true →
      j ∈ (tkSeg fetch shops n i s).fetched := by
  intro n
  induction n with
  | zero => intro i s j sh h1 h2 h3 h4; omega
  | succ p ih =>
      intro i s j sh h1 h2 h3 h4
      rw [tkSeg]
      rcases Nat.eq_or_lt_of_le h1 with hcase | hcase
      · subst hcase
        obtain ⟨t, ht⟩ := tkSeg_fetched_mono fetch shops p (i + 1) (tkUnit fetch shops i s)
        rw [ht, tkUnit_fetched_of_id fetch shops i s sh h3 h4]
        simp
      · exact ih (i + 1) (tkUnit fetch shops i s) j sh hcase (by omega) h3 h4

theorem tkPolStopAt_lt {k j : Nat} (h : j < k) : tkPolStopAt k j = Status.running := by
  unfold tkPolStopAt
  rw [if_neg (by omega)]

theorem tkPolStopAt_ge {k j : Nat} (h : k ≤ j) : tkPolStopAt k j = Status.stopped := by
  unfold tkPolStopAt
  rw [if_pos h]

theorem tkPolNever_ne (j : Nat) : tkPolNever j ≠ Status.stopped := by
  unfold tkPolNever
  intro h
  exact Status.noConfusion h

/-- C1: idempotent resume for the thekgolf loop.  For every input shop list
and fixed per-unit fetch outcomes: stop the first run once `k` units have been
processed (the registry reads `stopped` at unit `k`); the persisted record
then points at `k`; resuming from that record and the sink the first run left
behind, and running to completion, produces exactly the accumulated record
list (and sink) of a single uninterrupted run — here as plain list equality,
which subsumes the set view; validation drops none differently, since both
runs skip precisely the same id-less and failing units. -/
theorem tkResume_idempotent (fetch : Nat → TkFetch) (shops : List TkShop) (k : Nat)
    (hk : k < shops.length) :
    (tkRun (tkPolStopAt k) fetch shops none []).saved = some k ∧
    (tkRun tkPolNever fetch shops (tkRun (tkPolStopAt k) fetch shops none []).saved
        (tkRun (tkPolStopAt k) fetch shops none []).sink).detailedShops =
      (tkRun tkPolNever fetch shops none []).detailedShops ∧
    (tkRun tkPolNever fetch shops (tkRun (tkPolStopAt k) fetch shops none []).saved
        (tkRun (tkPolStopAt k) fetch shops none []).sink).sink =
      (tkRun tkPolNever fetch shops none []).sink := by
  have hstart : tkStart none = 0 := rfl
  have h1 : tkRun (tkPolStopAt k) fetch shops none [] =
      tkHalt k (tkSeg fetch shops k 0
        { detailedShops := [], sink := [], saved := none,
          status := Status.running, fetched := [], outcome := TkEnd.running }) := by
    unfold tkRun
    rw [hstart]
    rw [tkGo_stop_at (tkPolStopAt k) fetch shops k hk (tkPolStopAt_ge (le_refl k))
      (shops.length + 1) 0 _
      (fun j hj1 hj2 => by rw [tkPolStopAt_lt hj2]; exact fun h => Status.noConfusion h)
      (by omega) (by omega)]
    simp
  have hsink1 : (tkRun (tkPolStopAt k) fetch shops none []).sink = tkNew fetch shops k 0 := by
    rw [h1]
    unfold tkHalt
    simp only
    rw [tkSeg_sink fetch shops k 0 _ rfl, tkSeg_ds]
    simp
  have hsaved1 : (tkRun (tkPolStopAt k) fetch shops none []).saved = some k := by
    rw [h1]
    rfl
  refine ⟨hsaved1, ?_, ?_⟩
  · rw [hsaved1, hsink1]
    unfold tkRun
    rw [tkGo_no_stop tkPolNever fetch shops tkPolNever_ne (shops.length + 1)
      (tkStart (some k)) _ (by omega)]
    rw [tkGo_no_stop tkPolNever fetch shops tkPolNever_ne (shops.length + 1)
      (tkStart none) _ (by omega)]
    unfold tkFinalize
    simp only
    rw [tkSeg_ds, tkSeg_ds]
    have hs2 : tkStart (some k) = k := rfl
    rw [hs2, hstart]
    simp only [List.nil_append]
    have hsplit : shops.length - 0 = k + (shops.length - k) := by omega
    rw [hsplit, tkNew_add]
    simp
  · rw [hsaved1, hsink1]
    unfold tkRun
    rw [tkGo_no_stop tkPolNever fetch shops tkPolNever_ne (shops.length + 1)
      (tkStart (some k)) _ (by omega)]
    rw [tkGo_no_stop tkPolNever fetch shops tkPolNever_ne (shops.length + 1)
      (tkStart none) _ (by omega)]
    unfold tkFinalize
    simp only
    rw [tkSeg_ds, tkSeg_ds]
    have hs2 : tkStart (some k) = k := rfl
    rw [hs2, hstart]
    simp only [List.nil_append]
    have hsplit : shops.length - 0 = k + (shops.length - k) := by omega
    rw [hsplit, tkNew_add]
    simp

/-- Concrete shop list for the thekgolf witnesses. -/
def tkShopsW : List TkShop :=
  [{ name := "a", shopId := some 10 }, { name := "b", shopId := none },
   { name := "c", shopId := some 12 }]

/-- Concrete fetch outcomes for the thekgolf witnesses: unit 0 succeeds,
unit 2 fails, anything else has no detail. -/
def tkFetchW : Nat → TkFetch :=
  fun i => if i = 0 then TkFetch.ok [("P3", "2")]
           else if i = 2 then TkFetch.err else TkFetch.noDetail

/-- Witness for C1 at a concrete 3-shop input, stopping after 1 unit. -/
theorem tkResume_idempotent_witness :
    (tkRun (tkPolStopAt 1) tkFetchW tkShopsW none []).saved = some 1 ∧
    (tkRun tkPolNever tkFetchW tkShopsW (tkRun (tkPolStopAt 1) tkFetchW tkShopsW none []).saved
        (tkRun (tkPolStopAt 1) tkFetchW tkShopsW none []).sink).detailedShops =
      (tkRun tkPolNever tkFetchW tkShopsW none []).detailedShops ∧
    (tkRun tkPolNever tkFetchW tkShopsW (tkRun (tkPolStopAt 1) tkFetchW tkShopsW none []).saved
        (tkRun (tkPolStopAt 1) tkFetchW tkShopsW none []).sink).sink =
      (tkRun tkPolNever tkFetchW tkShopsW none []).sink :=
  tkResume_idempotent tkFetchW tkShopsW 1 (by decide)

/-- C3: cancellation postcondition for the thekgolf loop.  If the registry
reads `stopped` at the start of unit `k` (and not earlier in this run), the
run persists the Progress Record pointing at `k` itself — the current, not yet
processed unit — retains it (the stop path never deletes), sets the status
back to `idle` via `resetScraper`, and processes no unit at or after `k`. -/
theorem tkCancellation_postcondition (pol : Nat → Status) (fetch : Nat → TkFetch)
    (shops : List TkShop) (saved : Option Nat) (sink0 : List TkDetailed) (k : Nat)
    (hk1 : tkStart saved ≤ k) (hk2 : k < shops.length)
    (hpol1 : ∀ j, tkStart saved ≤ j → j < k → pol j ≠ Status.stopped)
    (hpol2 : pol k = Status.stopped) :
    (tkRun pol fetch shops saved sink0).saved = some k ∧
    (tkRun pol fetch shops saved sink0).status = Status.idle ∧
    (tkRun pol fetch shops saved sink0).outcome = TkEnd.stopped ∧
    ∀ j, k ≤ j → j ∉ (tkRun pol fetch shops saved sink0).fetched := by
  have h1 : tkRun pol fetch shops saved sink0 =
      tkHalt k (tkSeg fetch shops (k - tkStart saved) (tkStart saved)
        { detailedShops := sink0, sink := sink0, saved := saved,
          status := Status.running, fetched := [], outcome := TkEnd.running }) := by
    unfold tkRun
    rw [tkGo_stop_at pol fetch shops k hk2 hpol2 (shops.length + 1) (tkStart saved) _
      hpol1 hk1 (by omega)]
  rw [h1]
  refine ⟨rfl, rfl, rfl, ?_⟩
  intro j hj hmem
  unfold tkHalt at hmem
  simp only at hmem
  rcases tkSeg_fetched_range fetch shops (k - tkStart saved) (tkStart saved) _ j hmem with
    hin | hrange
  · simp at hin
  · omega

/-- Witness for C3: stop requested at unit 1 of the concrete 3-shop run; in
particular unit 2 is never attempted. -/
theorem tkCancellation_postcondition_witness :
    (tkRun (tkPolStopAt 1) tkFetchW tkShopsW none []).saved = some 1 ∧
    (tkRun (tkPolStopAt 1) tkFetchW tkShopsW none []).status = Status.idle ∧
    (tkRun (tkPolStopAt 1) tkFetchW tkShopsW none []).outcome = TkEnd.stopped ∧
    2 ∉ (tkRun (tkPolStopAt 1) tkFetchW tkShopsW none []).fetched :=
  ⟨(tkCancellation_postcondition (tkPolStopAt 1) tkFetchW tkShopsW none [] 1
      (by decide) (by decide)
      (fun j _ hj => by rw [tkPolStopAt_lt hj]; exact fun h => Status.noConfusion h)
      (tkPolStopAt_ge (le_refl 1))).1,
   (tkCancellation_postcondition (tkPolStopAt 1) tkFetchW tkShopsW none [] 1
      (by decide) (by decide)
      (fun j _ hj => by rw [tkPolStopAt_lt hj]; exact fun h => Status.noConfusion h)
      (tkPolStopAt_ge (le_refl 1))).2.1,
   (tkCancellation_postcondition (tkPolStopAt 1) tkFetchW tkShopsW none [] 1
      (by decide) (by decide)
      (fun j _ hj => by rw [tkPolStopAt_lt hj]; exact fun h => Status.noConfusion h)
      (tkPolStopAt_ge (le_refl 1))).2.2.1,
   (tkCancellation_postcondition (tkPolStopAt 1) tkFetchW tkShopsW none [] 1
      (by decide) (by decide)
      (fun j _ hj => by rw [tkPolStopAt_lt hj]; exact fun h => Status.noConfusion h)
      (tkPolStopAt_ge (le_refl 1))).2.2.2 2 (by decide)⟩

/-- C4 (amended): per-unit failure containment holds in the thekgolf detail
loop — with no stop request, a run always reaches the completion path whatever
the per-unit fetch outcomes (a failing unit is logged, its index persisted,
and the loop continues), and every unit with a shop id from the resume
position on is attempted, failures at earlier units notwithstanding.  In
fieldzone, by contrast, a per-page failure aborts the whole job (see the
counterexample). -/
theorem tkFailure_containment (fetch : Nat → TkFetch) (shops : List TkShop)
    (saved : Option Nat) (sink0 : List TkDetailed) :
    (tkRun tkPolNever fetch shops saved sink0).outcome = TkEnd.completed ∧
    ∀ j sh, tkStart saved ≤ j → shops[j]? = some sh → sh.shopId.isSome = true →
      j ∈ (tkRun tkPolNever fetch shops saved sink0).fetched := by
  have h1 : tkRun tkPolNever fetch shops saved sink0 =
      tkFinalize (tkSeg fetch shops (shops.length - tkStart saved) (tkStart saved)
        { detailedShops := sink0, sink := sink0, saved := saved,
          status := Status.running, fetched := [], outcome := TkEnd.running }) := by
    unfold tkRun
    rw [tkGo_no_stop tkPolNever fetch shops tkPolNever_ne (shops.length + 1)
      (tkStart saved) _ (by omega)]
  rw [h1]
  refine ⟨rfl, ?_⟩
  intro j sh hj hsh hid
  have hjlen : j < shops.length := by
    by_contra hcon
    rw [List.getElem?_eq_none (by omega)] at hsh
    exact Option.noConfusion hsh
  unfold tkFinalize
  simp only
  exact tkSeg_fetches_ids fetch shops (shops.length - tkStart saved) (tkStart saved) _ j sh
    hj (by omega) hsh hid

/-- Witness for the amended C4: in the concrete 3-shop run with no stop
request, unit 2's fetch fails and yet the run completes, and unit 2 was
attempted. -/
theorem tkFailure_containment_witness :
    (tkRun tkPolNever tkFetchW tkShopsW none []).outcome = TkEnd.completed ∧
    2 ∈ (tkRun tkPolNever tkFetchW tkShopsW none []).fetched :=
  ⟨(tkFailure_containment tkFetchW tkShopsW none []).1,
   (tkFailure_containment tkFetchW tkShopsW none []).2 2
     { name := "c", shopId := some 12 } (by decide) rfl rfl⟩

end GolfScraper
